import Mathlib

/-!
# Verification of the mock backend gateway (`src/server.js`)

The program is a thin wrapper around a generic JSON-file REST server:
one custom route `POST /api/v1/auth/login` plus a rewrite rule
`'/api/v1/*' → '/$1'` in front of a generic resource router.

We shallowly embed the JavaScript semantics the handler actually
exercises: JSON-like values with JS strict equality (`===`), property
access (which throws a `TypeError` on `null`/`undefined` receivers),
truthiness, string coercion by `+`, and rest-destructuring.  A thrown
exception is modelled by `Option.none`; the generic resource router is
an arbitrary function parameter, since its code lives outside this
repository.
-/

/-- JavaScript values, as reachable through JSON parsing plus the
`undefined` produced by reading an absent property.  Object and array
values carry their contents; JS `===` on them is *reference* equality,
and in this program the two operands of every `===` come from distinct
allocations (the parsed request body vs the loaded store), so strict
equality on them is `false`. -/
inductive JSVal : Type where
  | undef
  | null
  | boolean (b : Bool)
  | num (n : Int)
  | str (s : String)
  | arr (elems : List JSVal)
  | obj (fields : List (String × JSVal))
  deriving Repr

/-- A JavaScript object: ordered own enumerable string-keyed fields. -/
abbrev JSObj := List (String × JSVal)

/-- Property lookup inside an object's field list: the value bound to
key `k`, or `undefined` when the key is absent. -/
def getField (o : JSObj) (k : String) : JSVal :=
  match o.find? (fun kv => kv.1 = k) with
  | some kv => kv.2
  | none => JSVal.undef

/-- JS strict equality `===` restricted to the comparisons this program
performs: structural on primitives (`undefined === undefined` is
`true`), and `false` between object/array operands because the body and
the store are distinct allocations (reference inequality). -/
def strictEq : JSVal → JSVal → Bool
  | JSVal.undef, JSVal.undef => true
  | JSVal.null, JSVal.null => true
  | JSVal.boolean a, JSVal.boolean b => a = b
  | JSVal.num a, JSVal.num b => a = b
  | JSVal.str a, JSVal.str b => a = b
  | _, _ => false

/-- JS truthiness (`if (user)`), on JSON-reachable values: `0`, `""`,
`null`, `undefined` and `false` are falsy; objects and arrays are
always truthy.  (`NaN` is not representable in JSON.) -/
def truthy : JSVal → Bool
  | JSVal.undef => false
  | JSVal.null => false
  | JSVal.boolean b => b
  | JSVal.num n => n ≠ 0
  | JSVal.str s => s ≠ ""
  | JSVal.arr _ => true
  | JSVal.obj _ => true

mutual

/-- JS string coercion as applied by `'prefix' + v`: `undefined` prints
as `"undefined"`, `null` as `"null"`, numbers in decimal, arrays join
their elements with `","` (with `null`/`undefined` elements empty),
objects print `"[object Object]"`. -/
def jsToString : JSVal → String
  | JSVal.undef => "undefined"
  | JSVal.null => "null"
  | JSVal.boolean b => if b then "true" else "false"
  | JSVal.num n => toString n
  | JSVal.str s => s
  | JSVal.arr xs => jsArrElems xs
  | JSVal.obj _ => "[object Object]"

/-- Elements of an array joined with `","`, as `Array.prototype.toString`. -/
def jsArrElems : List JSVal → String
  | [] => ""
  | [x] => jsArrElem x
  | x :: xs => jsArrElem x ++ "," ++ jsArrElems xs

/-- One array element inside `Array.prototype.toString`: `null` and
`undefined` elements print as the empty string. -/
def jsArrElem : JSVal → String
  | JSVal.undef => ""
  | JSVal.null => ""
  | v => jsToString v

end

/-- Property access `v.k`: throws (`none`) when the receiver is `null`
or `undefined`; on objects it is field lookup; on other values the keys
this program reads (`phone`, `password`, `id`) are absent, yielding
`undefined`. -/
def getProp : JSVal → String → Option JSVal
  | JSVal.undef, _ => none
  | JSVal.null, _ => none
  | JSVal.obj fs, k => some (getField fs k)
  | _, _ => some JSVal.undef

/-- The predicate of `users.find(u => u.phone === phone && u.password
=== password)` applied to one element `u`, with `phone`/`password`
destructured from the request body.  `none` models the `TypeError`
thrown by property access on a `null`/`undefined` element; `&&`
short-circuits. -/
def userMatches (body : JSObj) (u : JSVal) : Option Bool :=
  match getProp u "phone" with
  | none => none
  | some up =>
    if strictEq up (getField body "phone") then
      match getProp u "password" with
      | none => none
      | some upw => some (strictEq upw (getField body "password"))
    else some false

/-- The semantics of `Array.prototype.find` with a predicate that can throw: returns the
first element on which the predicate is `true`, `some none`
(JS `undefined`) when no element matches, and propagates a throw. -/
def findM {α : Type} (p : α → Option Bool) : List α → Option (Option α)
  | [] => some none
  | x :: xs =>
    match p x with
    | none => none
    | some true => some (some x)
    | some false => findM p xs

/-- Rest-destructuring `const { password, ...userWithoutPassword } =
user`: the own enumerable properties of `user` except `password`, in
order.  Objects keep their other fields; arrays and strings expose
their indices as keys; numbers and booleans have no own enumerable
properties.  (`null`/`undefined` would throw, but in `login` the
matched element is never `null`/`undefined`: matching it would already
have thrown.) -/
def stripPassword : JSVal → JSObj
  | JSVal.obj fs => fs.filter (fun kv => kv.1 ≠ "password")
  | JSVal.arr xs => xs.enum.map (fun ix => (toString ix.1, ix.2))
  | JSVal.str s =>
      (s.toList.enum.map fun ic => (toString ic.1, JSVal.str (String.mk [ic.2])))
  | _ => []

/-- An HTTP response: status code and JSON body.  `res.json(x)` leaves
the default status `200`; `res.status(401).json(x)` sets `401`. -/
structure HttpResponse where
  status : Nat
  body : JSVal
  deriving Repr

/-- The fixed failure body `{ "message": "Invalid credentials" }`. -/
def invalidCredentialsBody : JSVal :=
  JSVal.obj [("message", JSVal.str "Invalid credentials")]

/-- Lines 17–25 of src/server.js, after `const user = users.find(...)`:
`if (user)` tests truthiness; the success body is
`{ token: 'mock-jwt-token-' + user.id, user: userWithoutPassword }`
(`res.json` leaves status 200), the failure body is sent with status
401.  Reading `user.id` can in principle throw (`none`), though the
`user` reaching this point is never `null`/`undefined`. -/
def respond (db : JSObj) (user : JSVal) : Option (HttpResponse × JSObj) :=
  if truthy user then
    match getProp user "id" with
    | none => none
    | some idv =>
      some ({ status := 200,
              body := JSVal.obj
                [("token", JSVal.str ("mock-jwt-token-" ++ jsToString idv)),
                 ("user", JSVal.obj (stripPassword user))] }, db)
  else
    some ({ status := 401, body := invalidCredentialsBody }, db)

/-- The handler of `server.post('/api/v1/auth/login', ...)`
(src/server.js lines 10–26).  The document store `db` is the top-level
object of `db.json`; `body` is the parsed request body.  `none` models
an uncaught exception (which the surrounding server surfaces as a 500):
`users.find` throws when `users` is not an array, and the find callback
throws on `null`/`undefined` elements.  `Option.getD` renders JS
`find` returning `undefined` when no element matches.  The handler
performs no write, so it returns the store it was given. -/
def login (db : JSObj) (body : JSObj) : Option (HttpResponse × JSObj) :=
  match getField db "users" with
  | JSVal.arr users =>
    match findM (userMatches body) users with
    | none => none
    | some found => respond db (found.getD JSVal.undef)
  | _ => none

/-! ## The gateway: route dispatch and the prefix rewrite -/

/-- HTTP methods.  Only `POST` is special-cased by the program. -/
inductive Method : Type where
  | GET | POST | PUT | PATCH | DELETE | OPTIONS | HEAD
  deriving Repr, DecidableEq

/-- An HTTP request: method, path (as a character list) and parsed JSON
body. -/
structure Request where
  method : Method
  path : List Char
  body : JSObj

/-- The path of the custom login route. -/
def loginPath : List Char := "/api/v1/auth/login".toList

/-- The prefix matched by the rewrite rule `'/api/v1/*'`. -/
def apiPrefix : List Char := "/api/v1/".toList

/-- The rewrite rule `jsonServer.rewriter({ '/api/v1/*': '/$1' })`
(src/server.js lines 29–31): a path starting with `/api/v1/` is
rewritten to `/` followed by what the `*` captured; any other path is
left unchanged. -/
def rewritePath (p : List Char) : List Char :=
  if apiPrefix.isPrefixOf p then '/' :: p.drop apiPrefix.length else p

/-- The server's dispatch (src/server.js lines 10–33): a `POST` to the
login path is handled by `login`; every other request has its path
rewritten and is handed to the generic resource `router`, an arbitrary
function because its code (the `json-server` router) lives outside this
repository.  The router is total; only the login handler can throw. -/
def gateway (router : Request → JSObj → HttpResponse × JSObj)
    (req : Request) (db : JSObj) : Option (HttpResponse × JSObj) :=
  if req.method = Method.POST ∧ req.path = loginPath then
    login db req.body
  else
    some (router { req with path := rewritePath req.path } db)

/-- The spec's matching predicate read literally (the spec side of the
login contract, for comparison with the code's behaviour): some stored
user record has `phone` and `password` fields equal, as case-sensitive
string equality, to the body's `phone` and `password`. -/
def specStringMatch (users : List JSVal) (body : JSObj) : Prop :=
  ∃ fs p pw, JSVal.obj fs ∈ users ∧
    getField fs "phone" = JSVal.str p ∧ getField body "phone" = JSVal.str p ∧
    getField fs "password" = JSVal.str pw ∧ getField body "password" = JSVal.str pw

/-! ## Helper lemmas about the embedded handler -/

/-- Strict equality against `undefined` fails for any other value. -/
theorem strictEq_undef_right_false {v : JSVal} (h : v ≠ JSVal.undef) :
    strictEq v JSVal.undef = false := by
  cases v <;> first | rfl | exact absurd rfl h

/-- Property access succeeds on any receiver but `null`/`undefined`. -/
theorem getProp_isSome {u : JSVal} (h1 : u ≠ JSVal.null) (h2 : u ≠ JSVal.undef)
    (k : String) : ∃ w, getProp u k = some w := by
  cases u with
  | undef => exact absurd rfl h2
  | null => exact absurd rfl h1
  | boolean b => exact ⟨_, rfl⟩
  | num n => exact ⟨_, rfl⟩
  | str s => exact ⟨_, rfl⟩
  | arr xs => exact ⟨_, rfl⟩
  | obj fs => exact ⟨_, rfl⟩

/-- The find predicate on an object record is the conjunction of the
two strict equalities. -/
theorem userMatches_obj (body : JSObj) (fs : JSObj) :
    userMatches body (JSVal.obj fs) =
      some (strictEq (getField fs "phone") (getField body "phone") &&
            strictEq (getField fs "password") (getField body "password")) := by
  unfold userMatches getProp
  by_cases h : strictEq (getField fs "phone") (getField body "phone") = true
  · simp [h]
  · simp [Bool.eq_false_iff.mpr h]

/-- The find predicate throws exactly on `null`/`undefined` elements. -/
theorem userMatches_eq_none_iff (body : JSObj) (u : JSVal) :
    userMatches body u = none ↔ u = JSVal.null ∨ u = JSVal.undef := by
  cases u <;> simp [userMatches, getProp] <;> split <;> simp

/-- A found element belongs to the list and satisfies the predicate. -/
theorem findM_eq_some_some {α : Type} {p : α → Option Bool} {xs : List α} {u : α}
    (h : findM p xs = some (some u)) : u ∈ xs ∧ p u = some true := by
  induction xs with
  | nil => simp [findM] at h
  | cons x xs ih =>
    rw [findM] at h
    cases hp : p x with
    | none => rw [hp] at h; simp at h
    | some b =>
      cases b with
      | true =>
        rw [hp] at h; simp at h; subst h
        exact ⟨List.mem_cons_self x xs, hp⟩
      | false =>
        rw [hp] at h
        rcases ih h with ⟨hmem, htrue⟩
        exact ⟨List.mem_cons_of_mem x hmem, htrue⟩

/-- If the search completed without a match, every element evaluated to
`false`. -/
theorem findM_eq_some_none {α : Type} {p : α → Option Bool} {xs : List α}
    (h : findM p xs = some none) : ∀ x ∈ xs, p x = some false := by
  induction xs with
  | nil => simp
  | cons x xs ih =>
    intro y hy
    rw [findM] at h
    cases hp : p x with
    | none => rw [hp] at h; simp at h
    | some b =>
      cases b with
      | true => rw [hp] at h; simp at h
      | false =>
        rw [hp] at h
        rcases List.mem_cons.mp hy with hyx | hyxs
        · subst hyx; exact hp
        · exact ih h y hyxs

/-- If every element evaluated to `false`, the search completes without
a match. -/
theorem findM_of_all_false {α : Type} {p : α → Option Bool} {xs : List α}
    (h : ∀ x ∈ xs, p x = some false) : findM p xs = some none := by
  induction xs with
  | nil => rfl
  | cons x xs ih =>
    rw [findM, h x (List.mem_cons_self x xs)]
    exact ih (fun y hy => h y (List.mem_cons_of_mem x hy))

/-- If no element throws, the search itself does not throw. -/
theorem findM_ne_none {α : Type} {p : α → Option Bool} {xs : List α}
    (h : ∀ x ∈ xs, p x ≠ none) : ∃ o, findM p xs = some o := by
  induction xs with
  | nil => exact ⟨none, rfl⟩
  | cons x xs ih =>
    cases hp : p x with
    | none => exact absurd hp (h x (List.mem_cons_self x xs))
    | some b =>
      cases b with
      | true => exact ⟨some x, by rw [findM, hp]⟩
      | false =>
        rcases ih (fun y hy => h y (List.mem_cons_of_mem x hy)) with ⟨o, ho⟩
        exact ⟨o, by rw [findM, hp]; exact ho⟩

/-- The search returns the element at the first index whose predicate holds,
when every earlier index evaluated to `false`. -/
theorem findM_first {α : Type} {p : α → Option Bool} (xs : List α) (i : Nat)
    (h : i < xs.length)
    (hmatch : p (xs.get ⟨i, h⟩) = some true)
    (hbefore : ∀ j (hj : j < i), p (xs.get ⟨j, Nat.lt_trans hj h⟩) = some false) :
    findM p xs = some (some (xs.get ⟨i, h⟩)) := by
  induction xs generalizing i with
  | nil => exact absurd h (Nat.not_lt_zero i)
  | cons x xs ih =>
    cases i with
    | zero =>
      have hx : (x :: xs).get ⟨0, h⟩ = x := rfl
      rw [hx] at hmatch
      rw [findM, hmatch, hx]
    | succ i =>
      have h0 : p x = some false := hbefore 0 (Nat.succ_pos i)
      rw [findM, h0]
      exact ih i (Nat.lt_of_succ_lt_succ h)
        hmatch
        (fun j hj => hbefore (j + 1) (Nat.succ_lt_succ hj))

/-- Branch lemma: a store whose `users` key holds an array, a completed
search with a match — the response is the 200 success payload built
from the matched element. -/
theorem login_success_eq {db body : JSObj} {users : List JSVal} {u idv : JSVal}
    (hu : getField db "users" = JSVal.arr users)
    (hf : findM (userMatches body) users = some (some u))
    (ht : truthy u = true)
    (hid : getProp u "id" = some idv) :
    login db body =
      some ({ status := 200,
              body := JSVal.obj
                [("token", JSVal.str ("mock-jwt-token-" ++ jsToString idv)),
                 ("user", JSVal.obj (stripPassword u))] }, db) := by
  unfold login
  simp only [hu, hf]
  unfold respond
  simp [ht, hid]

/-- Branch lemma: a completed search without a match yields the fixed
401 response and an unchanged store. -/
theorem login_nomatch_eq {db body : JSObj} {users : List JSVal}
    (hu : getField db "users" = JSVal.arr users)
    (hf : findM (userMatches body) users = some none) :
    login db body = some ({ status := 401, body := invalidCredentialsBody }, db) := by
  unfold login
  simp only [hu, hf]
  unfold respond
  simp [truthy]

/-- Branch lemma: a found but falsy element also yields the fixed 401
response (the handler tests `if (user)`, truthiness, not find success). -/
theorem login_falsy_eq {db body : JSObj} {users : List JSVal} {u : JSVal}
    (hu : getField db "users" = JSVal.arr users)
    (hf : findM (userMatches body) users = some (some u))
    (ht : truthy u = false) :
    login db body = some ({ status := 401, body := invalidCredentialsBody }, db) := by
  unfold login
  simp only [hu, hf]
  unfold respond
  simp [ht]

/-- Whatever branch is taken, the handler either throws or returns the
store it was given unchanged. -/
theorem login_eq_none_or_store (db body : JSObj) :
    login db body = none ∨ ∃ r, login db body = some (r, db) := by
  unfold login
  split
  · split
    · exact Or.inl rfl
    · unfold respond
      split
      · split
        · exact Or.inl rfl
        · exact Or.inr ⟨_, rfl⟩
      · exact Or.inr ⟨_, rfl⟩
  · exact Or.inl rfl

/-- The find predicate never throws on a non-`null`, non-`undefined`
element. -/
theorem userMatches_ne_none {body : JSObj} {u : JSVal}
    (h1 : u ≠ JSVal.null) (h2 : u ≠ JSVal.undef) :
    userMatches body u ≠ none := by
  rw [Ne, userMatches_eq_none_iff]
  rintro (h | h)
  · exact h1 h
  · exact h2 h

/-! ## Claim theorems -/

/-- C7: for every login request, matching or not, the document store is
left completely unchanged — the handler contains no write, so whenever
it produces a response the store it hands back is the one it was given.
(When it throws, `none`, there is no store to speak of and the
surrounding server likewise performs no write.) -/
theorem login_leaves_store_unchanged (db body : JSObj) (r : HttpResponse)
    (db' : JSObj) (h : login db body = some (r, db')) : db' = db := by
  rcases login_eq_none_or_store db body with hn | ⟨r', hr⟩
  · rw [hn] at h
    exact Option.noConfusion h
  · have hsame := hr.symm.trans h
    simp only [Option.some.injEq, Prod.mk.injEq] at hsame
    exact hsame.2.symm

/-- Witness for C7 at a concrete store and body. -/
theorem login_leaves_store_unchanged_witness :
    ([("users", JSVal.arr [])] : JSObj) = [("users", JSVal.arr [])] :=
  login_leaves_store_unchanged [("users", JSVal.arr [])] []
    { status := 401, body := invalidCredentialsBody } [("users", JSVal.arr [])] rfl

/-- C4: when the scan finds no matching user record, the response is
HTTP 401 with exactly the body `{ "message": "Invalid credentials" }`,
and the store is unchanged. -/
theorem login_no_match_401 {db body : JSObj} {users : List JSVal}
    (hu : getField db "users" = JSVal.arr users)
    (hf : findM (userMatches body) users = some none) :
    login db body = some ({ status := 401, body := invalidCredentialsBody }, db) :=
  login_nomatch_eq hu hf

/-- Witness for C4: a store with one user and a wrong password. -/
theorem login_no_match_401_witness :
    login [("users", JSVal.arr [JSVal.obj [("id", JSVal.str "1"),
        ("phone", JSVal.str "555-0100"), ("password", JSVal.str "pw1")]])]
      [("phone", JSVal.str "555-0100"), ("password", JSVal.str "wrong")]
    = some ({ status := 401, body := invalidCredentialsBody },
        [("users", JSVal.arr [JSVal.obj [("id", JSVal.str "1"),
          ("phone", JSVal.str "555-0100"), ("password", JSVal.str "pw1")]])]) :=
  login_no_match_401 rfl (by simp [findM, userMatches, getProp, getField, strictEq])

/-- C3: the token of every successful login is exactly the literal
prefix `mock-jwt-token-` concatenated with (the string form of) the
matched user's `id`, and the whole success response is the value below,
a deterministic function of the store and the body — `login` is a pure
function, so no randomness or expiry can enter. -/
theorem login_token_shape {db body : JSObj} {users : List JSVal} {u idv : JSVal}
    (hu : getField db "users" = JSVal.arr users)
    (hf : findM (userMatches body) users = some (some u))
    (ht : truthy u = true)
    (hid : getProp u "id" = some idv) :
    (∃ r, login db body = some (r, db) ∧ r.status = 200 ∧
      ∃ userObj, r.body = JSVal.obj
        [("token", JSVal.str ("mock-jwt-token-" ++ jsToString idv)),
         ("user", userObj)]) ∧
    (∀ s, idv = JSVal.str s →
      "mock-jwt-token-" ++ jsToString idv = "mock-jwt-token-" ++ s) := by
  refine ⟨⟨_, login_success_eq hu hf ht hid, rfl, ⟨_, rfl⟩⟩, ?_⟩
  rintro s rfl
  rw [jsToString]

/-- Witness for C3: the spec's own example store. -/
theorem login_token_shape_witness :
    (∃ r, login [("users", JSVal.arr [JSVal.obj [("id", JSVal.str "1"),
          ("phone", JSVal.str "555-0100"), ("password", JSVal.str "pw1"),
          ("name", JSVal.str "A")]])]
        [("phone", JSVal.str "555-0100"), ("password", JSVal.str "pw1")]
      = some (r, [("users", JSVal.arr [JSVal.obj [("id", JSVal.str "1"),
          ("phone", JSVal.str "555-0100"), ("password", JSVal.str "pw1"),
          ("name", JSVal.str "A")]])]) ∧ r.status = 200 ∧
      ∃ userObj, r.body = JSVal.obj
        [("token", JSVal.str ("mock-jwt-token-" ++ jsToString (JSVal.str "1"))),
         ("user", userObj)]) ∧
    (∀ s, JSVal.str "1" = JSVal.str s →
      "mock-jwt-token-" ++ jsToString (JSVal.str "1") = "mock-jwt-token-" ++ s) :=
  login_token_shape rfl
    (show findM _ _ = some (some (JSVal.obj [("id", JSVal.str "1"),
        ("phone", JSVal.str "555-0100"), ("password", JSVal.str "pw1"),
        ("name", JSVal.str "A")])) by
      simp [findM, userMatches, getProp, getField, strictEq])
    rfl rfl

/-- C2: the 200 response's `user` object is the matched record with the
`password` field removed: it is exactly the filtered field list, it
never contains a `password` key, and every non-`password` field of the
record is kept (order included, being a filter). -/
theorem login_password_stripped {db body : JSObj} {users : List JSVal} {fs : JSObj}
    (hu : getField db "users" = JSVal.arr users)
    (hf : findM (userMatches body) users = some (some (JSVal.obj fs))) :
    ∃ r tok, login db body = some (r, db) ∧ r.status = 200 ∧
      r.body = JSVal.obj [("token", tok),
        ("user", JSVal.obj (fs.filter (fun kv => kv.1 ≠ "password")))] ∧
      (∀ kv ∈ fs.filter (fun kv => kv.1 ≠ "password"), kv.1 ≠ "password") ∧
      (∀ kv ∈ fs, kv.1 ≠ "password" →
        kv ∈ fs.filter (fun kv => kv.1 ≠ "password")) := by
  refine ⟨_, _, login_success_eq hu hf rfl rfl, rfl, rfl, ?_, ?_⟩
  · intro kv hkv
    exact of_decide_eq_true (List.mem_filter.mp hkv).2
  · intro kv hkv hne
    exact List.mem_filter.mpr ⟨hkv, decide_eq_true hne⟩

/-- Witness for C2: a record with a password and extra fields. -/
theorem login_password_stripped_witness :
    ∃ r tok, login [("users", JSVal.arr [JSVal.obj [("id", JSVal.str "1"),
          ("phone", JSVal.str "555-0100"), ("password", JSVal.str "pw1"),
          ("name", JSVal.str "A")]])]
        [("phone", JSVal.str "555-0100"), ("password", JSVal.str "pw1")]
      = some (r, [("users", JSVal.arr [JSVal.obj [("id", JSVal.str "1"),
          ("phone", JSVal.str "555-0100"), ("password", JSVal.str "pw1"),
          ("name", JSVal.str "A")]])]) ∧ r.status = 200 ∧
      r.body = JSVal.obj [("token", tok),
        ("user", JSVal.obj (([("id", JSVal.str "1"), ("phone", JSVal.str "555-0100"),
          ("password", JSVal.str "pw1"), ("name", JSVal.str "A")] : JSObj).filter
            (fun kv => kv.1 ≠ "password")))] ∧
      (∀ kv ∈ ([("id", JSVal.str "1"), ("phone", JSVal.str "555-0100"),
          ("password", JSVal.str "pw1"), ("name", JSVal.str "A")] : JSObj).filter
            (fun kv => kv.1 ≠ "password"), kv.1 ≠ "password") ∧
      (∀ kv ∈ ([("id", JSVal.str "1"), ("phone", JSVal.str "555-0100"),
          ("password", JSVal.str "pw1"), ("name", JSVal.str "A")] : JSObj),
        kv.1 ≠ "password" →
        kv ∈ ([("id", JSVal.str "1"), ("phone", JSVal.str "555-0100"),
          ("password", JSVal.str "pw1"), ("name", JSVal.str "A")] : JSObj).filter
            (fun kv => kv.1 ≠ "password")) :=
  login_password_stripped rfl (by simp [findM, userMatches, getProp, getField, strictEq])

/-- Counterexample to C1 as stated: with one stored record `{}` and an
empty body, `u.phone === phone` compares `undefined === undefined`, so
the scan matches and login answers 200 — yet no record has `phone` and
`password` fields string-equal to the body's. -/
theorem login_200_iff_string_match_counterexample :
    (∃ r, login [("users", JSVal.arr [JSVal.obj []])] [] =
        some (r, [("users", JSVal.arr [JSVal.obj []])]) ∧ r.status = 200) ∧
    ¬ specStringMatch [JSVal.obj []] [] := by
  constructor
  · have hf : findM (userMatches []) [JSVal.obj []] = some (some (JSVal.obj [])) := by
      simp [findM, userMatches, getProp, getField, strictEq]
    exact ⟨_, login_success_eq rfl hf rfl rfl, rfl⟩
  · rintro ⟨fs, p, pw, hmem, hfp, hbp, hfpw, hbpw⟩
    simp [getField, List.find?] at hbp

/-- C1 (amended): over stores whose `users` array holds only object
records, login answers 200 iff some record's `phone` and `password`
values are strictly equal (JS `===`) to the body's — case-sensitive
string equality when present string fields, but also satisfied when the
field is absent (`undefined`) from both record and body; otherwise it
answers 401 with the fixed message. -/
theorem login_200_iff_strict_match {db body : JSObj} {users : List JSVal}
    (hu : getField db "users" = JSVal.arr users)
    (hobj : ∀ u ∈ users, ∃ fs, u = JSVal.obj fs) :
    ∃ r, login db body = some (r, db) ∧
      (r.status = 200 ↔ ∃ fs, JSVal.obj fs ∈ users ∧
        (strictEq (getField fs "phone") (getField body "phone") &&
         strictEq (getField fs "password") (getField body "password")) = true) ∧
      (r.status = 200 ∨ (r.status = 401 ∧ r.body = invalidCredentialsBody)) := by
  have hnn : ∀ u ∈ users, userMatches body u ≠ none := by
    intro u hmem
    rcases hobj u hmem with ⟨fs, rfl⟩
    rw [userMatches_obj]
    exact Option.noConfusion
  rcases findM_ne_none hnn with ⟨found, hf⟩
  cases found with
  | none =>
    refine ⟨_, login_nomatch_eq hu hf, ?_, Or.inr ⟨rfl, rfl⟩⟩
    constructor
    · intro h
      exact absurd h (by simp)
    · rintro ⟨fs, hmem, hb⟩
      have hall := findM_eq_some_none hf (JSVal.obj fs) hmem
      rw [userMatches_obj] at hall
      simp only [Option.some.injEq] at hall
      rw [hall] at hb
      exact (Bool.false_ne_true hb).elim
  | some u =>
    rcases findM_eq_some_some hf with ⟨hmem, htrue⟩
    rcases hobj u hmem with ⟨fs, rfl⟩
    refine ⟨_, login_success_eq hu hf rfl rfl, ?_, Or.inl rfl⟩
    constructor
    · intro _
      refine ⟨fs, hmem, ?_⟩
      rw [userMatches_obj] at htrue
      simpa using htrue
    · intro _
      rfl

/-- Witness for C1 (amended) at the spec's example store. -/
theorem login_200_iff_strict_match_witness :
    ∃ r, login [("users", JSVal.arr [JSVal.obj [("id", JSVal.str "1"),
          ("phone", JSVal.str "555-0100"), ("password", JSVal.str "pw1")]])]
        [("phone", JSVal.str "555-0100"), ("password", JSVal.str "pw1")]
      = some (r, [("users", JSVal.arr [JSVal.obj [("id", JSVal.str "1"),
          ("phone", JSVal.str "555-0100"), ("password", JSVal.str "pw1")]])]) ∧
      (r.status = 200 ↔ ∃ fs, JSVal.obj fs ∈
          [JSVal.obj [("id", JSVal.str "1"), ("phone", JSVal.str "555-0100"),
            ("password", JSVal.str "pw1")]] ∧
        (strictEq (getField fs "phone")
            (getField [("phone", JSVal.str "555-0100"), ("password", JSVal.str "pw1")] "phone") &&
         strictEq (getField fs "password")
            (getField [("phone", JSVal.str "555-0100"), ("password", JSVal.str "pw1")] "password")) = true) ∧
      (r.status = 200 ∨ (r.status = 401 ∧ r.body = invalidCredentialsBody)) :=
  login_200_iff_strict_match rfl
    (by
      intro u hmem
      rw [List.mem_singleton] at hmem
      exact ⟨_, hmem⟩)

/-- Counterexample to C5 as stated: a body missing both fields does not
always get 401 — against a store holding the record `{}` it logs in
with 200, because a missing body field (`undefined`) strictly equals
the record's missing field (`undefined`). -/
theorem login_missing_field_counterexample :
    getField ([] : JSObj) "phone" = JSVal.undef ∧
    getField ([] : JSObj) "password" = JSVal.undef ∧
    ∃ r, login [("users", JSVal.arr [JSVal.obj []])] [] =
        some (r, [("users", JSVal.arr [JSVal.obj []])]) ∧ r.status ≠ 401 := by
  have hf : findM (userMatches []) [JSVal.obj []] = some (some (JSVal.obj [])) := by
    simp [findM, userMatches, getProp, getField, strictEq]
  exact ⟨rfl, rfl, _, login_success_eq rfl hf rfl rfl, by simp⟩

/-- C5 (amended): if every stored user record is an object actually
carrying both a `phone` and a `password` field (present fields are
never `undefined`), then a request body missing `phone` or missing
`password` matches no record and the response is 401. -/
theorem login_missing_field_401 {db body : JSObj} {users : List JSVal}
    (hu : getField db "users" = JSVal.arr users)
    (hrec : ∀ u ∈ users, ∃ fs, u = JSVal.obj fs ∧
      getField fs "phone" ≠ JSVal.undef ∧ getField fs "password" ≠ JSVal.undef)
    (hmiss : getField body "phone" = JSVal.undef ∨
      getField body "password" = JSVal.undef) :
    login db body = some ({ status := 401, body := invalidCredentialsBody }, db) := by
  apply login_nomatch_eq hu
  apply findM_of_all_false
  intro u hmem
  rcases hrec u hmem with ⟨fs, rfl, hp, hpw⟩
  rw [userMatches_obj]
  rcases hmiss with hm | hm
  · rw [hm, strictEq_undef_right_false hp, Bool.false_and]
  · rw [hm, strictEq_undef_right_false hpw, Bool.and_false]

/-- Witness for C5 (amended): body lacking `password` against a
well-formed user record. -/
theorem login_missing_field_401_witness :
    login [("users", JSVal.arr [JSVal.obj [("id", JSVal.str "1"),
        ("phone", JSVal.str "555-0100"), ("password", JSVal.str "pw1")]])]
      [("phone", JSVal.str "555-0100")]
    = some ({ status := 401, body := invalidCredentialsBody },
        [("users", JSVal.arr [JSVal.obj [("id", JSVal.str "1"),
          ("phone", JSVal.str "555-0100"), ("password", JSVal.str "pw1")]])]) :=
  login_missing_field_401 rfl
    (by
      intro u hmem
      rw [List.mem_singleton] at hmem
      refine ⟨_, hmem, ?_, ?_⟩
      · intro h
        simp [getField, List.find?] at h
      · intro h
        simp [getField, List.find?] at h)
    (Or.inr rfl)

/-- Counterexample to C9 as stated: the store's `users` key is bound to
an array, yet the handler throws — `u.phone` on the `null` element is a
`TypeError` (surfaced as a 500, neither 200 nor 401). -/
theorem login_array_throws_counterexample :
    getField [("users", JSVal.arr [JSVal.null])] "users" = JSVal.arr [JSVal.null] ∧
    login [("users", JSVal.arr [JSVal.null])] [] = none :=
  ⟨rfl, rfl⟩

/-- C9 (amended): provided the store's `users` key is bound to an array
none of whose elements is `null` or `undefined`, the handler never
throws — every request reaches the 200 branch or the 401 branch — and
an empty `users` array always yields the 401. -/
theorem login_total_on_clean_users (db body : JSObj) (users : List JSVal)
    (hu : getField db "users" = JSVal.arr users)
    (hclean : ∀ u ∈ users, u ≠ JSVal.null ∧ u ≠ JSVal.undef) :
    (∃ r, login db body = some (r, db) ∧
      (r.status = 200 ∨ (r.status = 401 ∧ r.body = invalidCredentialsBody))) ∧
    (users = [] →
      login db body = some ({ status := 401, body := invalidCredentialsBody }, db)) := by
  constructor
  · have hnn : ∀ u ∈ users, userMatches body u ≠ none := fun u h =>
      userMatches_ne_none (hclean u h).1 (hclean u h).2
    rcases findM_ne_none hnn with ⟨found, hf⟩
    cases found with
    | none => exact ⟨_, login_nomatch_eq hu hf, Or.inr ⟨rfl, rfl⟩⟩
    | some u =>
      rcases findM_eq_some_some hf with ⟨hmem, _⟩
      cases ht : truthy u with
      | true =>
        rcases getProp_isSome (hclean u hmem).1 (hclean u hmem).2 "id" with ⟨idv, hid⟩
        exact ⟨_, login_success_eq hu hf ht hid, Or.inl rfl⟩
      | false => exact ⟨_, login_falsy_eq hu hf ht, Or.inr ⟨rfl, rfl⟩⟩
  · rintro rfl
    exact login_nomatch_eq hu rfl

/-- Witness for C9 (amended): the empty `users` array. -/
theorem login_total_on_clean_users_witness :
    (∃ r, login [("users", JSVal.arr [])] [] = some (r, [("users", JSVal.arr [])]) ∧
      (r.status = 200 ∨ (r.status = 401 ∧ r.body = invalidCredentialsBody))) ∧
    (([] : List JSVal) = [] →
      login [("users", JSVal.arr [])] [] =
        some ({ status := 401, body := invalidCredentialsBody }, [("users", JSVal.arr [])])) :=
  login_total_on_clean_users [("users", JSVal.arr [])] [] [] rfl (by simp)

/-- C8: when two or more records match the credentials, the response is
built from the first matching element in the collection's array order —
`find` stops at the lowest index whose predicate holds, so its `id`
fills the token and its stripped fields fill the `user` object. -/
theorem login_first_match_wins {db body : JSObj} {users : List JSVal} {idv : JSVal}
    (hu : getField db "users" = JSVal.arr users)
    (i : Nat) (h : i < users.length)
    (hmatch : userMatches body (users.get ⟨i, h⟩) = some true)
    (hbefore : ∀ j (hj : j < i),
      userMatches body (users.get ⟨j, Nat.lt_trans hj h⟩) = some false)
    (ht : truthy (users.get ⟨i, h⟩) = true)
    (hid : getProp (users.get ⟨i, h⟩) "id" = some idv) :
    login db body =
      some ({ status := 200,
              body := JSVal.obj
                [("token", JSVal.str ("mock-jwt-token-" ++ jsToString idv)),
                 ("user", JSVal.obj (stripPassword (users.get ⟨i, h⟩)))] }, db) :=
  login_success_eq hu (findM_first users i h hmatch hbefore) ht hid

/-- Witness for C8: two records with identical credentials; the
response carries the first one's id. -/
theorem login_first_match_wins_witness :
    login [("users", JSVal.arr
        [JSVal.obj [("id", JSVal.str "1"), ("phone", JSVal.str "p"), ("password", JSVal.str "w")],
         JSVal.obj [("id", JSVal.str "2"), ("phone", JSVal.str "p"), ("password", JSVal.str "w")]])]
      [("phone", JSVal.str "p"), ("password", JSVal.str "w")]
    = some ({ status := 200,
              body := JSVal.obj
                [("token", JSVal.str ("mock-jwt-token-" ++ jsToString (JSVal.str "1"))),
                 ("user", JSVal.obj (stripPassword
                   (([JSVal.obj [("id", JSVal.str "1"), ("phone", JSVal.str "p"), ("password", JSVal.str "w")],
                      JSVal.obj [("id", JSVal.str "2"), ("phone", JSVal.str "p"), ("password", JSVal.str "w")]] : List JSVal).get
                     ⟨0, by simp⟩)))] },
        [("users", JSVal.arr
          [JSVal.obj [("id", JSVal.str "1"), ("phone", JSVal.str "p"), ("password", JSVal.str "w")],
           JSVal.obj [("id", JSVal.str "2"), ("phone", JSVal.str "p"), ("password", JSVal.str "w")]])]) :=
  login_first_match_wins
    (show getField [("users", JSVal.arr
        [JSVal.obj [("id", JSVal.str "1"), ("phone", JSVal.str "p"), ("password", JSVal.str "w")],
         JSVal.obj [("id", JSVal.str "2"), ("phone", JSVal.str "p"), ("password", JSVal.str "w")]])] "users"
      = JSVal.arr
        [JSVal.obj [("id", JSVal.str "1"), ("phone", JSVal.str "p"), ("password", JSVal.str "w")],
         JSVal.obj [("id", JSVal.str "2"), ("phone", JSVal.str "p"), ("password", JSVal.str "w")]] from rfl)
    0 (by simp)
    (by simp [userMatches, getProp, getField, strictEq])
    (fun j hj => absurd hj (Nat.not_lt_zero j))
    rfl rfl

/-- A list is a Boolean prefix of itself followed by anything. -/
theorem isPrefixOf_append_eq_true (l r : List Char) : l.isPrefixOf (l ++ r) = true := by
  induction l with
  | nil => simp [List.isPrefixOf]
  | cons c l ih => simp [List.isPrefixOf, ih]

/-- C6: for every non-login request whose path lies under `/api/v1/`,
the gateway's answer is exactly the generic router's answer to the same
request with the prefix rewritten to `/` — the rewrite is transparent,
whatever the router's behaviour. -/
theorem gateway_rewrite_transparent
    (router : Request → JSObj → HttpResponse × JSObj)
    (m : Method) (rest : List Char) (body db : JSObj)
    (hnl : ¬ (m = Method.POST ∧ apiPrefix ++ rest = loginPath)) :
    gateway router { method := m, path := apiPrefix ++ rest, body := body } db =
      some (router { method := m, path := '/' :: rest, body := body } db) := by
  unfold gateway
  rw [if_neg hnl]
  unfold rewritePath
  rw [if_pos (isPrefixOf_append_eq_true apiPrefix rest), List.drop_left]

/-- Witness for C6: a GET of `/api/v1/users` reaches the router as
`/users`, for a sample router echoing its path. -/
theorem gateway_rewrite_transparent_witness :
    gateway (fun req store => ({ status := 200, body := JSVal.str (String.mk req.path) }, store))
      { method := Method.GET, path := apiPrefix ++ "users".toList, body := [] } []
    = some ((fun (req : Request) (store : JSObj) =>
        ({ status := 200, body := JSVal.str (String.mk req.path) }, store))
          { method := Method.GET, path := '/' :: "users".toList, body := [] } []) :=
  gateway_rewrite_transparent _ Method.GET ("users".toList) [] []
    (by
      rintro ⟨h, -⟩
      exact Method.noConfusion h)

/-- C10: only `POST` is special-cased: any other method on
`/api/v1/auth/login` bypasses the login handler, has its path rewritten
to `/auth/login`, and is answered by the generic router. -/
theorem gateway_nonpost_login_routed
    (router : Request → JSObj → HttpResponse × JSObj)
    (m : Method) (body db : JSObj) (hm : m ≠ Method.POST) :
    gateway router { method := m, path := loginPath, body := body } db =
      some (router { method := m, path := "/auth/login".toList, body := body } db) := by
  unfold gateway
  rw [if_neg (fun hc => hm hc.1)]
  have hrw : rewritePath loginPath = "/auth/login".toList := by decide
  rw [hrw]

/-- Witness for C10: a GET of the login path goes to the router as
`/auth/login`. -/
theorem gateway_nonpost_login_routed_witness :
    gateway (fun req store => ({ status := 200, body := JSVal.str (String.mk req.path) }, store))
      { method := Method.GET, path := loginPath, body := [] } []
    = some ((fun (req : Request) (store : JSObj) =>
        ({ status := 200, body := JSVal.str (String.mk req.path) }, store))
          { method := Method.GET, path := "/auth/login".toList, body := [] } []) :=
  gateway_nonpost_login_routed _ Method.GET [] []
    (fun h => Method.noConfusion h)
